import Mathlib

/-!
Verification development for the Bing search-result extraction pipeline and
its ephemeral result store.  The TypeScript sources are embedded shallowly:
the DOM queried by cheerio is abstracted into records holding, for each
element, exactly the values the extractor reads (first-match texts and
attributes); JavaScript string and URL operations are modelled by
executable Lean functions over character lists.
-/

namespace BingMcp

/-- Model of the JavaScript expression a OR b on strings where a is an
optional attribute value: undefined and the empty string are falsy, so the
default b is used for both. -/
def jsOr (a : Option String) (b : String) : String :=
  match a with
  | some s => if s = "" then b else s
  | none => b

/-- Model of String.prototype.startsWith. -/
def jsStartsWith (s pre : String) : Bool :=
  pre.data.isPrefixOf s.data

/-- Substring test on character lists: pat occurs contiguously in l. -/
def listIsInfixOf (pat : List Char) : List Char → Bool
  | [] => pat.isEmpty
  | c :: cs => pat.isPrefixOf (c :: cs) || listIsInfixOf pat cs

/-- Model of String.prototype.includes (substring test). -/
def jsIncludes (s sub : String) : Bool :=
  listIsInfixOf sub.data s.data

/-- Model of String.prototype.substring(0, n); lengths are counted in code
points rather than UTF-16 units, which agrees on the inputs considered
here. -/
def jsSubstring (s : String) (n : Nat) : String :=
  String.mk (s.data.take n)

/-- Model of String.prototype.length (code points, see jsSubstring). -/
def jsLength (s : String) : Nat :=
  s.data.length

/-- Replace the first occurrence of pat in the list by rep, as
String.prototype.replace does with a string pattern. -/
def listReplaceFirst (pat rep : List Char) : List Char → List Char
  | [] => []
  | c :: cs =>
    if pat.isPrefixOf (c :: cs) then rep ++ (c :: cs).drop pat.length
    else c :: listReplaceFirst pat rep cs

/-- Model of String.prototype.replace with a string pattern (first
occurrence only). -/
def jsReplaceFirst (s pat rep : String) : String :=
  String.mk (listReplaceFirst pat.data rep.data s.data)

/-- Model of String.prototype.trim. -/
def jsTrim (s : String) : String :=
  String.mk ((((s.data.dropWhile Char.isWhitespace).reverse).dropWhile Char.isWhitespace).reverse)

/-- Little-endian decimal digit list of a natural number, empty for
zero; fuel-structured so that it reduces definitionally, with any fuel
of at least the value itself sufficient. -/
def natReprAux : Nat → Nat → List Char
  | 0, _ => []
  | _, 0 => []
  | fuel + 1, n + 1 => Nat.digitChar ((n + 1) % 10) :: natReprAux fuel ((n + 1) / 10)

/-- Decimal representation of a natural number, modelling the JavaScript
template-string rendering of a non-negative integer. -/
def natRepr (n : Nat) : String :=
  if n = 0 then "0" else String.mk (natReprAux n n).reverse

/-- Numeric value of a decimal digit character. -/
def digitVal (c : Char) : Nat :=
  c.toNat - Char.toNat '0'

/-- Evaluate a little-endian decimal digit list back to a number. -/
def evalDigits : List Char → Nat
  | [] => 0
  | c :: cs => digitVal c + 10 * evalDigits cs

/-- Split a character list at every occurrence of sep (auxiliary, carries
the reversed current segment). -/
def splitListAux (sep : Char) : List Char → List Char → List (List Char)
  | [], acc => [acc.reverse]
  | c :: cs, acc =>
    if c = sep then acc.reverse :: splitListAux sep cs []
    else splitListAux sep cs (c :: acc)

/-- Split a character list at every occurrence of sep. -/
def splitList (sep : Char) (l : List Char) : List (List Char) :=
  splitListAux sep l []

/-- Split a list at the first character satisfying p: the part before and
the part from that character on. -/
def takeUntil (p : Char → Bool) (l : List Char) : List Char × List Char :=
  (l.takeWhile (fun c => !(p c)), l.dropWhile (fun c => !(p c)))

/-- Model of a parsed WHATWG URL, restricted to the http and https
absolute URLs this pipeline produces: scheme, host, path and query
parameters; ports, userinfo, fragments and percent-encoding are outside
the modelled subset. -/
structure Url where
  scheme : String
  host : String
  path : String
  query : List (String × String)
  deriving DecidableEq, Repr

/-- Parse one query-string segment into a key and value (split at the
first equals sign), as URLSearchParams does. -/
def parseParam (seg : List Char) : String × String :=
  let ks := takeUntil (fun c => c = '=') seg
  (String.mk ks.1, String.mk (ks.2.drop 1))

/-- Parse a raw query string into parameter pairs; empty segments are
ignored, as URLSearchParams does. -/
def parseQuery (q : List Char) : List (String × String) :=
  ((splitList '&' q).filter (fun seg => !seg.isEmpty)).map parseParam

/-- Serialize query parameters back to a string, as
URLSearchParams.toString does. -/
def queryToString (q : List (String × String)) : String :=
  String.intercalate "&" (q.map (fun p => p.1 ++ "=" ++ p.2))

/-- Model of the WHATWG URL constructor on the inputs reachable in this
pipeline: an absolute http or https URL with a non-empty host parses;
every other string fails (the constructor throws).  Fragments are
dropped; none of the inputs used in the theorems below carry one. -/
def urlParse (s : String) : Option Url :=
  let l := s.data
  let schemeRest : Option (String × List Char) :=
    if List.isPrefixOf ("https://".data) l then some (("https"), l.drop 8)
    else if List.isPrefixOf ("http://".data) l then some (("http"), l.drop 7)
    else none
  match schemeRest with
  | none => none
  | some (sch, rest) =>
    let hostSplit := takeUntil (fun c => c = '/' || c = '?' || c = '#') rest
    if hostSplit.1.isEmpty then none
    else
      let pathSplit := takeUntil (fun c => c = '?' || c = '#') hostSplit.2
      let qchars : List Char :=
        match pathSplit.2 with
        | '?' :: q => (takeUntil (fun c => c = '#') q).1
        | _ => []
      some { scheme := sch, host := String.mk hostSplit.1,
             path := String.mk pathSplit.1, query := parseQuery qchars }

/-- Model of URL.toString: an empty path serializes as a single slash and
an empty parameter list contributes no question mark. -/
def Url.toString (u : Url) : String :=
  u.scheme ++ "://" ++ u.host ++ (if u.path = "" then "/" else u.path) ++
    (if u.query.isEmpty then "" else "?" ++ queryToString u.query)

/-- Model of url.searchParams.delete(k): removes every pair with that
key. -/
def Url.deleteParam (u : Url) (k : String) : Url :=
  { u with query := u.query.filter (fun p => !(p.1 = k)) }

/-! ## Data model (src/unnamed/part_000, interfaces SearchResult and
SearchResultWithTimestamp) -/

/-- One extracted search hit, as the SearchResult interface. -/
structure SearchResult where
  id : String
  title : String
  link : String
  snippet : String
  deriving DecidableEq, Repr

/-- A search hit together with its creation time, as the
SearchResultWithTimestamp interface. -/
structure SearchResultWithTimestamp extends SearchResult where
  timestamp : Nat
  deriving DecidableEq, Repr

/-! ## Result store (src/src/index.ts) -/

/-- Maximum number of results kept in memory (MAX_RESULTS). -/
def MAX_RESULTS : Nat := 1000

/-- Result expiration time, one hour in milliseconds
(RESULT_EXPIRATION_MS). -/
def RESULT_EXPIRATION_MS : Nat := 60 * 60 * 1000

/-- generateResultId from index.ts: increments the counter and builds the
identifier from the prefix, the current time, the incremented counter and
the random component; returns the identifier together with the new
counter value.  The random component produced by
Math.random().toString(36).substring(2, 9) consists of base-36 digit
characters and never contains an underscore. -/
def generateResultId (pfx : String) (counter : Nat) (now : Nat) (random : String) : String × Nat :=
  let counter := counter + 1
  (pfx ++ "_" ++ natRepr now ++ "_" ++ natRepr counter ++ "_" ++ random, counter)

/-- Stable insertion of a store entry into a list sorted by ascending
timestamp: the entry goes before the first element whose timestamp is not
smaller, matching the stable Array.prototype.sort with comparator
a.timestamp - b.timestamp. -/
def insertByTimestamp {α : Type} (e : α × Nat) : List (α × Nat) → List (α × Nat)
  | [] => [e]
  | x :: xs => if x.2 < e.2 then x :: insertByTimestamp e xs else e :: x :: xs

/-- Stable sort of store entries by ascending timestamp (model of
Array.prototype.sort with comparator a.timestamp - b.timestamp, which is
stable). -/
def sortByTimestamp {α : Type} : List (α × Nat) → List (α × Nat)
  | [] => []
  | x :: xs => insertByTimestamp x (sortByTimestamp xs)

/-- cleanupResults from index.ts.  The Map is modelled as an
insertion-ordered association list from the opaque record id to the
record timestamp (the only record field cleanup reads); deleting ids
preserves the order of the remaining entries, as Map.delete does.  The
first pass removes every entry older than the expiration time; if more
than MAX_RESULTS entries remain, the entries oldest by timestamp are
removed until exactly MAX_RESULTS remain. -/
def cleanupResults {α : Type} [DecidableEq α] (now : Nat) (store : List (α × Nat)) : List (α × Nat) :=
  let entries := store.filter (fun e => !(now - e.2 > RESULT_EXPIRATION_MS))
  if entries.length > MAX_RESULTS then
    let sorted := sortByTimestamp entries
    let toRemove := sorted.take (entries.length - MAX_RESULTS)
    entries.filter (fun e => !(toRemove.any (fun r => r.1 = e.1)))
  else entries

/-! ## Abstract view of a parsed result element (src/unnamed/part_000)

Each structure field holds the value of one cheerio query the extractor
performs on a result element: a field of type Option is none when the
query matches no element, and some of the first match data otherwise.
All text values are stored after trimming, because the source always
applies .text().trim().  Attribute values are Option String, none when
the attribute is absent; an attribute that is present but empty behaves
as falsy, which jsOr reflects. -/

/-- First match of find with h2 a inside the element. -/
structure H2Anchor where
  text : String
  href : Option String
  deriving DecidableEq, Repr

/-- First match of find with a.tilk inside a .b_tpcn block. -/
structure TilkAnchor where
  href : Option String
  redirecturl : Option String
  dataH : Option String
  deriving DecidableEq, Repr

/-- First match of find with .b_tpcn inside the element. -/
structure TpcnBlock where
  tptt : Option String
  tilk : Option TilkAnchor
  deriving DecidableEq, Repr

/-- First match of the alternate title selector list
.b_title a, a.tilk, h2 a, a[target=_blank]; nestedText is the trimmed
text of its first .tptt or strong descendant, empty when there is
none. -/
structure AltAnchor where
  text : String
  nestedText : String
  href : Option String
  redirecturl : Option String
  dataH : Option String
  deriving DecidableEq, Repr

/-- First h2 inside the element; anchorHref is some h when that h2
contains an anchor whose href attribute is h (an Option, absent
attributes included). -/
structure H2Block where
  text : String
  anchorHref : Option (Option String)
  deriving DecidableEq, Repr

/-- First match of find with .b_caption: the trimmed text of its first p
descendant when one exists, and the full trimmed caption text. -/
structure CaptionBlock where
  pText : Option String
  text : String
  deriving DecidableEq, Repr

/-- Abstract view of one candidate result element: exactly the query
results the block-selector pass reads. -/
structure Element where
  h2a : Option H2Anchor
  tpcn : Option TpcnBlock
  alt : Option AltAnchor
  h2 : Option H2Block
  caption : Option CaptionBlock
  snippetEl : Option String
  fullText : String
  headingText : String
  hasClassAd : Bool
  inAdContainer : Bool
  hasClassPag : Bool
  hasClassMsg : Bool
  deriving DecidableEq, Repr

/-- Abstract view of one anchor matched by the last-resort selector list
over result-bearing containers; the closest fields hold the trimmed
texts of the queries against the closest li, .b_algo or .b_ans ancestor,
empty when nothing matches. -/
structure AnchorEl where
  text : String
  href : Option String
  redirecturl : Option String
  dataH : Option String
  closestHeadingText : String
  closestH2Text : String
  closestCaptionText : String
  deriving DecidableEq, Repr

/-- Abstract view of a loaded document: for each of the five fixed block
selectors, in their priority order, the list of matching elements in
document order; and the anchors matched by the last-resort selector
list. -/
structure Document where
  blocks : List (List Element)
  anchors : List AnchorEl
  deriving DecidableEq, Repr

/-- The fixed block-selector list, in priority order; Document.blocks
lists the match sets of these selectors in this order. -/
def resultSelectors : List String :=
  ["#b_results > li.b_algo",
   "#b_results > li.b_ans",
   "#b_results > li:not(.b_ad):not(.b_pag):not(.b_msg)",
   "#b_topw > li.b_algo",
   "#b_topw > li.b_ans"]

/-- A candidate record before id assignment. -/
structure Candidate where
  title : String
  link : String
  snippet : String
  deriving DecidableEq, Repr

/-- Lines 174 to 188 of the extractor: fix incomplete links.  Bing
redirect-wrapper paths are dropped; other relative links are resolved
against the cn.bing.com origin.  Note the protocol-relative branch is
kept in source order, after the branch testing a single leading
slash. -/
def fixBingLink (link : String) : String :=
  if link ≠ "" && !(jsStartsWith link ("http")) then
    if jsStartsWith link ("/newtabredir") || jsStartsWith link ("/ck/a") then ""
    else if jsStartsWith link ("/") then "https://cn.bing.com" ++ link
    else if jsStartsWith link ("//") then "https:" ++ link
    else "https://cn.bing.com/" ++ link
  else link

/-- The tracking query parameters removed during link cleanup. -/
def trackingParams : List String :=
  ["utm_source", "utm_medium", "utm_campaign", "ref", "source"]

/-- Lines 190 to 203 of the extractor: parse the link, delete the
tracking parameters and serialize it back; when parsing fails the
original link is kept. -/
def cleanTrackingParams (link : String) : String :=
  if link = "" then link
  else
    match urlParse link with
    | some url => (trackingParams.foldl (fun u p => u.deleteParam p) url).toString
    | none => link

/-- Lines 77 to 136 of the extractor: resolve title and link through the
four methods, in order. -/
def resolveTitleLink (e : Element) : String × String :=
  let tl : String × String :=
    match e.h2a with
    | some a => (a.text, jsOr a.href "")
    | none => ("", "")
  let tl : String × String :=
    if tl.1 = "" || tl.2 = "" then
      match e.tpcn with
      | some tp =>
        let t := match tp.tptt with
          | some s => s
          | none => tl.1
        let l := match tp.tilk with
          | some tk => jsOr tk.href (jsOr tk.redirecturl (jsOr tk.dataH tl.2))
          | none => tl.2
        (t, l)
      | none => tl
    else tl
  let tl : String × String :=
    if tl.1 = "" || tl.2 = "" then
      match e.alt with
      | some a =>
        let t := if tl.1 = "" then (if a.text ≠ "" then a.text else a.nestedText) else tl.1
        let l := if tl.2 = "" then jsOr a.href (jsOr a.redirecturl (jsOr a.dataH "")) else tl.2
        (t, l)
      | none => tl
    else tl
  if tl.1 = "" then
    match e.h2 with
    | some h =>
      let l := match h.anchorHref with
        | some hr => if tl.2 = "" then jsOr hr "" else tl.2
        | none => tl.2
      (h.text, l)
    | none => tl
  else tl

/-- Lines 138 to 172 of the extractor: resolve the snippet from the
caption, the snippet containers, or the whole element text with the
already-resolved title removed and the result capped at 200
characters. -/
def resolveSnippet (e : Element) (title : String) : String :=
  let snippet : String :=
    match e.caption with
    | some c =>
      match c.pText with
      | some p => p
      | none => c.text
    | none => ""
  let snippet : String :=
    if snippet = "" then
      match e.snippetEl with
      | some s => s
      | none => snippet
    else snippet
  if snippet = "" then
    let s := e.fullText
    let s := if title ≠ "" && jsIncludes s title then jsTrim (jsReplaceFirst s title "") else s
    if jsLength s > 200 then jsSubstring s 200 ++ "..." else s
  else snippet

/-- Lines 218 to 227 of the extractor: when the title is empty but a
link exists, derive the title from the link host, or from the element
text, or from a positional placeholder. -/
def backfillTitleFromLink (idx : Nat) (e : Element) (title link : String) : String :=
  if title = "" && link ≠ "" then
    match urlParse link with
    | some u => "Result from " ++ u.host
    | none =>
      let elementText := jsSubstring e.fullText 100
      if elementText ≠ "" then elementText else "Search Result " ++ natRepr (idx + 1)
  else title

/-- Lines 218 to 238 of the extractor: backfill an empty title from the
link host, the element heading text, or a positional placeholder. -/
def backfillTitle (idx : Nat) (e : Element) (title link : String) : String :=
  let title := backfillTitleFromLink idx e title link
  if title = "" then
    if e.headingText ≠ "" then jsSubstring e.headingText 200
    else
      let t := jsSubstring e.fullText 50
      if t ≠ "" then t else "Result " ++ natRepr (idx + 1)
  else title

/-- Lines 77 to 244 of the extractor, the state-free part of the
per-element callback: extract title, link and snippet, fix and clean the
link, skip advertisement, pagination and message elements, backfill the
title, and reject the element when title, link and snippet are all
empty.  idx is the element index within the current selector match
set. -/
def blockCandidate (idx : Nat) (e : Element) : Option Candidate :=
  let tl := resolveTitleLink e
  let snippet := resolveSnippet e tl.1
  let link := fixBingLink tl.2
  let link := cleanTrackingParams link
  if e.hasClassAd || e.inAdContainer then none
  else if e.hasClassPag || e.hasClassMsg then none
  else
    let title := backfillTitle idx e tl.1 link
    if title = "" && link = "" && snippet = "" then none
    else some { title := title, link := link, snippet := snippet }

/-! ## Extraction pipeline state -/

/-- State accumulated by one extraction run: the results array, the
records handed to saveResult in order, the number of generateId calls,
the number of candidates discarded as duplicates (ghost counter, for
accounting), and the number of cleanup invocations. -/
structure ExtractState where
  results : List SearchResultWithTimestamp
  stored : List SearchResultWithTimestamp
  genCalls : Nat
  dupDiscards : Nat
  cleanups : Nat
  deriving DecidableEq, Repr

/-- The empty extraction state. -/
def initState : ExtractState :=
  { results := [], stored := [], genCalls := 0, dupDiscards := 0, cleanups := 0 }

/-- The collaborators handed to the extractor: the id generator (indexed
by its call number within the run, mirroring the injected closure over
the store counter) and the creation timestamp Date.now() returns during
the run. -/
structure PipelineCtx where
  genId : String → Nat → String
  now : Nat

/-- Lines 63 to 275 of the extractor: process one element matched by a
block selector.  The candidate is computed; if the element is not
skipped an id is generated, then the candidate is discarded when a
previously accepted result has the same non-empty link, and otherwise
the record is saved, cleanup is invoked when the pre-push result count
is a multiple of 50, and the record is appended. -/
def processBlockElement (ctx : PipelineCtx) (idx : Nat) (e : Element) (s : ExtractState) : ExtractState :=
  match blockCandidate idx e with
  | none => s
  | some c =>
    let _id := ctx.genId ("result") s.genCalls
    let s1 := { s with genCalls := s.genCalls + 1 }
    if s1.results.any (fun r => r.link = c.link && c.link ≠ "") then
      { s1 with dupDiscards := s1.dupDiscards + 1 }
    else
      let r : SearchResultWithTimestamp :=
        { id := _id, title := c.title, link := c.link, snippet := c.snippet, timestamp := ctx.now }
      let s2 := { s1 with stored := s1.stored ++ [r] }
      let s3 := if s2.results.length % 50 = 0 then { s2 with cleanups := s2.cleanups + 1 } else s2
      { s3 with results := s3.results ++ [r] }

/-- Process the match list of one block selector: each element is
processed unless the accepted count has already reached numResults, in
which case the iteration stops (the callback returns false). -/
def processBlockList (ctx : PipelineCtx) (numResults : Int) (idx : Nat) (els : List Element) (s : ExtractState) : ExtractState :=
  match els with
  | [] => s
  | e :: rest =>
    if (s.results.length : Int) ≥ numResults then s
    else processBlockList ctx numResults (idx + 1) rest (processBlockElement ctx idx e s)

/-- Lines 61 to 284 of the extractor: try the block selectors in order;
after each selector the loop breaks once the accepted count has reached
numResults, and otherwise continues with the next selector. -/
def processSelectors (ctx : PipelineCtx) (numResults : Int) : List (List Element) → ExtractState → ExtractState
  | [], s => s
  | l :: rest, s =>
    let s := processBlockList ctx numResults 0 l s
    if (s.results.length : Int) ≥ numResults then s
    else processSelectors ctx numResults rest s

/-- Line 299 of the extractor: the anchor link from href or the
alternate attributes. -/
def anchorLink (a : AnchorEl) : String :=
  jsOr a.href (jsOr a.redirecturl (jsOr a.dataH ""))

/-- Lines 305 to 312 of the extractor: complete a relative anchor link
against the cn.bing.com origin. -/
def anchorFullLink (link : String) : String :=
  if !(jsStartsWith link ("http")) then
    if jsStartsWith link ("/") then "https://cn.bing.com" ++ link
    else "https://cn.bing.com/" ++ link
  else link

/-- Lines 317 to 322 of the extractor: replace an absent or too-short
anchor title by an ancestor heading or a positional placeholder. -/
def anchorTitle (idx : Nat) (a : AnchorEl) : String :=
  if a.text = "" || jsLength a.text < 3 then
    if a.closestHeadingText ≠ "" then a.closestHeadingText
    else if a.closestH2Text ≠ "" then a.closestH2Text
    else "Result " ++ natRepr (idx + 1)
  else a.text

/-- Lines 294 to 342 of the extractor, the per-anchor logic of the
last-resort pass: ok none means the anchor is skipped, ok (some c) is an
accepted candidate, and error models the uncaught TypeError thrown by
the URL constructor when the snippet is synthesized from an unparseable
link. -/
def anchorCandidate (idx : Nat) (a : AnchorEl) : Except String (Option Candidate) :=
  let link := anchorLink a
  if link = "" || link = "#" || jsStartsWith link ("javascript:") || jsIncludes link ("/search?") then
    Except.ok none
  else
    let fullLink := anchorFullLink link
    if jsIncludes fullLink ("bing.com/search") || jsIncludes fullLink ("bing.com/ck") then
      Except.ok none
    else
      let snippet := a.closestCaptionText
      match (if snippet = "" then (urlParse fullLink).map (fun u => "Result from " ++ u.host) else some snippet) with
      | none => Except.error "TypeError: Invalid URL"
      | some snippet =>
        Except.ok (some { title := jsSubstring (anchorTitle idx a) 200, link := fullLink, snippet := jsSubstring snippet 300 })

/-- Accept one last-resort record: count the generateId call, hand the
record to saveResult and append it to the results. -/
def anchorAccept (s : ExtractState) (r : SearchResultWithTimestamp) : ExtractState :=
  { s with genCalls := s.genCalls + 1, stored := s.stored ++ [r], results := s.results ++ [r] }

/-- The last-resort pass loop: anchors are processed in document order,
stopping once the accepted count reaches numResults; each accepted
candidate receives an id, is saved and is appended, with no duplicate
check. -/
def processAnchors (ctx : PipelineCtx) (numResults : Int) (idx : Nat) : List AnchorEl → ExtractState → Except String ExtractState
  | [], s => Except.ok s
  | a :: rest, s =>
    if (s.results.length : Int) ≥ numResults then Except.ok s
    else
      match anchorCandidate idx a with
      | Except.error msg => Except.error msg
      | Except.ok none => processAnchors ctx numResults (idx + 1) rest s
      | Except.ok (some c) =>
        let r : SearchResultWithTimestamp :=
          { id := ctx.genId ("result_link") s.genCalls, title := c.title, link := c.link,
            snippet := c.snippet, timestamp := ctx.now }
        processAnchors ctx numResults (idx + 1) rest (anchorAccept s r)

/-- extractBingSearchResults from src/unnamed/part_000: run the block
selectors in priority order, and when no result was accepted fall back
to the last-resort anchor pass.  The Except models the uncaught
exception of the last-resort pass; ok carries the final run state whose
results field is the returned array. -/
def extractBingSearchResults (ctx : PipelineCtx) (doc : Document) (numResults : Int) : Except String ExtractState :=
  let s := processSelectors ctx numResults doc.blocks initState
  if s.results.length = 0 then processAnchors ctx numResults 0 doc.anchors s
  else Except.ok s

/-- Modelled from the spec: the cascading strategy resolution of section
4.1 as the spec words it, with the selector loop stopping as soon as one
selector has been productive (accepted at least one result).  This is
the comparison definition for the refinement claim that later selectors
contribute nothing once an earlier selector produced results; the code
definition is processSelectors. -/
def specProcessSelectors (ctx : PipelineCtx) (numResults : Int) : List (List Element) → ExtractState → ExtractState
  | [], s => s
  | l :: rest, s =>
    let s := processBlockList ctx numResults 0 l s
    if s.results.length > 0 then s
    else specProcessSelectors ctx numResults rest s

/-- Modelled from the spec: the full pipeline using the first-productive
selector loop of specProcessSelectors, with the same last-resort
pass. -/
def extractSpecFirstProductive (ctx : PipelineCtx) (doc : Document) (numResults : Int) : Except String ExtractState :=
  let s := specProcessSelectors ctx numResults doc.blocks initState
  if s.results.length = 0 then processAnchors ctx numResults 0 doc.anchors s
  else Except.ok s

/-! ## Concrete fixtures

Abstract views of small concrete documents, each realizable as plain
markup; the realizing markup is given in the comments.  The id generator
is wired exactly as in index.ts: the injected callback is
generateResultId with the process-wide counter, modelled by the call
index, a fixed clock value and a fixed random component. -/

/-- The id generator wiring of index.ts: the nth generateId call of a run
sees counter value n, here with clock 0 and random component
abcdefg. -/
def wiredGenId (pfx : String) (n : Nat) : String :=
  (generateResultId pfx n 0 "abcdefg").1

/-- Pipeline context using the wired id generator and clock 0. -/
def ctxC : PipelineCtx :=
  { genId := wiredGenId, now := 0 }

/-- View of li class b_algo containing only h2 with an anchor without
href whose text is T, inside div id b_results: the title resolves to T,
the link stays empty, and the snippet becomes empty because the whole
element text equals the title. -/
def elemT : Element :=
  { h2a := some { text := "T", href := none }
    tpcn := none
    alt := some { text := "T", nestedText := "", href := none, redirecturl := none, dataH := none }
    h2 := some { text := "T", anchorHref := some none }
    caption := none
    snippetEl := none
    fullText := "T"
    headingText := "T"
    hasClassAd := false
    inAdContainer := false
    hasClassPag := false
    hasClassMsg := false }

/-- View of li class b_algo containing h2 with an anchor with href
https://a.example/ and text TA, inside div id b_results. -/
def elemA : Element :=
  { h2a := some { text := "TA", href := some "https://a.example/" }
    tpcn := none
    alt := some { text := "TA", nestedText := "", href := some "https://a.example/", redirecturl := none, dataH := none }
    h2 := some { text := "TA", anchorHref := some (some "https://a.example/") }
    caption := none
    snippetEl := none
    fullText := "TA"
    headingText := "TA"
    hasClassAd := false
    inAdContainer := false
    hasClassPag := false
    hasClassMsg := false }

/-- Like elemA but a li class b_ans with anchor text TB and href
https://b.example/. -/
def elemB : Element :=
  { h2a := some { text := "TB", href := some "https://b.example/" }
    tpcn := none
    alt := some { text := "TB", nestedText := "", href := some "https://b.example/", redirecturl := none, dataH := none }
    h2 := some { text := "TB", anchorHref := some (some "https://b.example/") }
    caption := none
    snippetEl := none
    fullText := "TB"
    headingText := "TB"
    hasClassAd := false
    inAdContainer := false
    hasClassPag := false
    hasClassMsg := false }

/-- A second li class b_algo whose anchor text is TA2 but whose href is
the same https://a.example/ as elemA. -/
def elemA2 : Element :=
  { h2a := some { text := "TA2", href := some "https://a.example/" }
    tpcn := none
    alt := some { text := "TA2", nestedText := "", href := some "https://a.example/", redirecturl := none, dataH := none }
    h2 := some { text := "TA2", anchorHref := some (some "https://a.example/") }
    caption := none
    snippetEl := none
    fullText := "TA2"
    headingText := "TA2"
    hasClassAd := false
    inAdContainer := false
    hasClassPag := false
    hasClassMsg := false }

/-- Anchor view of the elemA anchor, as matched by the last-resort
selector list. -/
def anchorA : AnchorEl :=
  { text := "TA", href := some "https://a.example/", redirecturl := none, dataH := none
    closestHeadingText := "TA", closestH2Text := "TA", closestCaptionText := "" }

/-- Anchor view of the elemB anchor. -/
def anchorB : AnchorEl :=
  { text := "TB", href := some "https://b.example/", redirecturl := none, dataH := none
    closestHeadingText := "TB", closestH2Text := "TB", closestCaptionText := "" }

/-- Anchor view of the elemA2 anchor. -/
def anchorA2 : AnchorEl :=
  { text := "TA2", href := some "https://a.example/", redirecturl := none, dataH := none
    closestHeadingText := "TA2", closestH2Text := "TA2", closestCaptionText := "" }

/-- Document with the single element elemT: it matches block selectors
one and three (a li class b_algo child of div id b_results also matches
the li not-ad selector), and its anchor has no href so the last-resort
selector matches nothing. -/
def docT : Document :=
  { blocks := [[elemT], [], [elemT], [], []], anchors := [] }

/-- Document realizable as div id b_results containing li class b_algo
with the TA anchor followed by li class b_ans with the TB anchor: both
lis also match the third selector. -/
def docC3 : Document :=
  { blocks := [[elemA], [elemB], [elemA, elemB], [], []], anchors := [anchorA, anchorB] }

/-- Document with two li class b_algo results sharing the same link
https://a.example/. -/
def docC8 : Document :=
  { blocks := [[elemA, elemA2], [], [elemA, elemA2], [], []], anchors := [anchorA, anchorA2] }

/-- Document realizable as div id b_results directly containing two
anchors with the same href https://dup.example/x and no li children: no
block selector matches, and the last-resort pass sees both anchors. -/
def docC1 : Document :=
  { blocks := [[], [], [], [], []]
    anchors :=
      [{ text := "First Link", href := some "https://dup.example/x", redirecturl := none, dataH := none
         closestHeadingText := "", closestH2Text := "", closestCaptionText := "" },
       { text := "Second Link", href := some "https://dup.example/x", redirecturl := none, dataH := none
         closestHeadingText := "", closestH2Text := "", closestCaptionText := "" }] }

/-- Document realizable as div id b_results directly containing one
anchor with href httpfoo and text some link text: no block selector
matches, the anchor passes every last-resort filter, its ancestor chain
has no caption, and the synthesized snippet parses httpfoo as a URL. -/
def docC9 : Document :=
  { blocks := [[], [], [], [], []]
    anchors :=
      [{ text := "some link text", href := some "httpfoo", redirecturl := none, dataH := none
         closestHeadingText := "", closestH2Text := "", closestCaptionText := "" }] }

/-! ## Helper lemmas -/

theorem string_eq_empty_iff (s : String) : s = "" ↔ s.data = [] :=
  ⟨fun h => by rw [h], fun h => String.ext h⟩

theorem append_ne_empty_left (a b : String) (h : a ≠ "") : a ++ b ≠ "" := by
  intro hc
  apply h
  rw [string_eq_empty_iff] at hc ⊢
  rw [String.data_append] at hc
  exact (List.append_eq_nil.mp hc).1

theorem jsSubstring_ne_empty (s : String) (n : Nat) (hs : s ≠ "") (hn : n ≠ 0) :
    jsSubstring s n ≠ "" := by
  intro hc
  apply hs
  rw [string_eq_empty_iff] at hc
  rcases List.take_eq_nil_iff.mp hc with h | h
  · exact absurd h hn
  · exact String.ext h

/-- The title produced by the backfill stage is never empty: a non-empty
incoming title is kept, and every fallback branch produces a non-empty
string. -/
theorem backfillTitle_ne_empty (idx : Nat) (e : Element) (title link : String) :
    backfillTitle idx e title link ≠ "" := by
  show (let t := backfillTitleFromLink idx e title link
        if t = "" then
          if e.headingText ≠ "" then jsSubstring e.headingText 200
          else
            let t2 := jsSubstring e.fullText 50
            if t2 ≠ "" then t2 else "Result " ++ natRepr (idx + 1)
        else t) ≠ ""
  by_cases ht : backfillTitleFromLink idx e title link = ""
  · rw [if_pos ht]
    by_cases hh : e.headingText = ""
    · rw [if_neg (by simpa using hh)]
      by_cases hf : jsSubstring e.fullText 50 = ""
      · rw [if_neg (by simpa using hf)]
        exact append_ne_empty_left "Result " _ (by decide)
      · rw [if_pos (by simpa using hf)]
        exact hf
    · rw [if_pos (by simpa using hh)]
      exact jsSubstring_ne_empty _ _ hh (by decide)
  · rw [if_neg ht]
    exact ht

/-- Every candidate accepted by the block-element logic has a non-empty
title. -/
theorem blockCandidate_title_ne_empty (idx : Nat) (e : Element) (c : Candidate)
    (h : blockCandidate idx e = some c) : c.title ≠ "" := by
  simp only [blockCandidate] at h
  split at h
  · exact absurd h (by simp)
  · split at h
    · exact absurd h (by simp)
    · split at h
      · exact absurd h (by simp)
      · rw [Option.some.injEq] at h
        subst h
        exact backfillTitle_ne_empty _ _ _ _

/-- The anchor title stage never produces an empty string. -/
theorem anchorTitle_ne_empty (idx : Nat) (a : AnchorEl) : anchorTitle idx a ≠ "" := by
  unfold anchorTitle
  by_cases hshort : (a.text = "" || decide (jsLength a.text < 3)) = true
  · rw [if_pos hshort]
    by_cases hh : a.closestHeadingText = ""
    · rw [if_neg (by simpa using hh)]
      by_cases h2 : a.closestH2Text = ""
      · rw [if_neg (by simpa using h2)]
        exact append_ne_empty_left "Result " _ (by decide)
      · rw [if_pos (by simpa using h2)]
        exact h2
    · rw [if_pos (by simpa using hh)]
      exact hh
  · rw [if_neg hshort]
    intro hc
    exact hshort (by simp [hc])

/-- Every candidate accepted by the last-resort anchor logic has a
non-empty title. -/
theorem anchorCandidate_title_ne_empty (idx : Nat) (a : AnchorEl) (c : Candidate)
    (h : anchorCandidate idx a = Except.ok (some c)) : c.title ≠ "" := by
  simp only [anchorCandidate] at h
  split at h
  · exact absurd h (by simp)
  · split at h
    · exact absurd h (by simp)
    · split at h
      · exact absurd h (by simp)
      · rw [Except.ok.injEq, Option.some.injEq] at h
        subst h
        exact jsSubstring_ne_empty _ _ (anchorTitle_ne_empty idx a) (by decide)

/-- Case analysis of one block-element step: the element is skipped with
the state unchanged, or it is discarded as a duplicate after one
generateId call, or it is accepted, appending one record with a
non-empty title whose link duplicates no previously accepted non-empty
link. -/
theorem processBlockElement_cases (ctx : PipelineCtx) (idx : Nat) (e : Element) (s : ExtractState) :
    processBlockElement ctx idx e s = s ∨
    ((processBlockElement ctx idx e s).results = s.results ∧
     (processBlockElement ctx idx e s).stored = s.stored ∧
     (processBlockElement ctx idx e s).genCalls = s.genCalls + 1 ∧
     (processBlockElement ctx idx e s).dupDiscards = s.dupDiscards + 1) ∨
    (∃ r : SearchResultWithTimestamp,
       r.title ≠ "" ∧
       (∀ x ∈ s.results, x.link = r.link → r.link = "") ∧
       (processBlockElement ctx idx e s).results = s.results ++ [r] ∧
       (processBlockElement ctx idx e s).stored = s.stored ++ [r] ∧
       (processBlockElement ctx idx e s).genCalls = s.genCalls + 1 ∧
       (processBlockElement ctx idx e s).dupDiscards = s.dupDiscards) := by
  unfold processBlockElement
  cases hbc : blockCandidate idx e with
  | none => exact Or.inl rfl
  | some c =>
    dsimp only
    by_cases hdup : s.results.any (fun r => r.link = c.link && c.link ≠ "") = true
    · rw [if_pos hdup]
      exact Or.inr (Or.inl ⟨rfl, rfl, rfl, rfl⟩)
    · rw [if_neg hdup]
      refine Or.inr (Or.inr (Exists.intro
        { id := ctx.genId ("result") s.genCalls, title := c.title,
          link := c.link, snippet := c.snippet, timestamp := ctx.now }
        ⟨blockCandidate_title_ne_empty idx e c hbc, ?_, ?_, ?_, ?_, ?_⟩))
      · intro x hx hlink
        rw [List.any_eq_true] at hdup
        push_neg at hdup
        have hx2 := hdup x hx
        by_contra hne
        rw [hlink] at hx2
        simp [hne] at hx2
      · split <;> rfl
      · split <;> rfl
      · split <;> rfl
      · split <;> rfl

/-- Invariant preservation through the match list of one selector. -/
theorem processBlockList_invariant (ctx : PipelineCtx) (N : Int) (P : ExtractState → Prop)
    (hstep : ∀ idx e s, (s.results.length : Int) < N → P s → P (processBlockElement ctx idx e s)) :
    ∀ (els : List Element) (idx : Nat) (s : ExtractState), P s → P (processBlockList ctx N idx els s) := by
  intro els
  induction els with
  | nil => intro idx s hs; exact hs
  | cons e rest ih =>
    intro idx s hs
    unfold processBlockList
    by_cases hge : (s.results.length : Int) ≥ N
    · rw [if_pos hge]; exact hs
    · rw [if_neg hge]
      exact ih _ _ (hstep idx e s (lt_of_not_ge hge) hs)

/-- Invariant preservation through the selector loop. -/
theorem processSelectors_invariant (ctx : PipelineCtx) (N : Int) (P : ExtractState → Prop)
    (hstep : ∀ idx e s, (s.results.length : Int) < N → P s → P (processBlockElement ctx idx e s)) :
    ∀ (ls : List (List Element)) (s : ExtractState), P s → P (processSelectors ctx N ls s) := by
  intro ls
  induction ls with
  | nil => intro s hs; exact hs
  | cons l rest ih =>
    intro s hs
    have h1 : P (processBlockList ctx N 0 l s) :=
      processBlockList_invariant ctx N P hstep l 0 s hs
    show P (if ((processBlockList ctx N 0 l s).results.length : Int) ≥ N then processBlockList ctx N 0 l s
            else processSelectors ctx N rest (processBlockList ctx N 0 l s))
    split
    · exact h1
    · exact ih _ h1

/-- Invariant preservation through the last-resort pass: the invariant
survives each accepted record. -/
theorem processAnchors_ok_invariant (ctx : PipelineCtx) (N : Int) (P : ExtractState → Prop)
    (hstep : ∀ (s : ExtractState) (idx : Nat) (a : AnchorEl) (c : Candidate),
        anchorCandidate idx a = Except.ok (some c) →
        (s.results.length : Int) < N → P s →
        P (anchorAccept s { id := ctx.genId ("result_link") s.genCalls, title := c.title,
                            link := c.link, snippet := c.snippet, timestamp := ctx.now })) :
    ∀ (las : List AnchorEl) (idx : Nat) (s st : ExtractState),
      P s → processAnchors ctx N idx las s = Except.ok st → P st := by
  intro las
  induction las with
  | nil =>
    intro idx s st hs hok
    rw [show processAnchors ctx N idx [] s = Except.ok s from rfl, Except.ok.injEq] at hok
    exact hok ▸ hs
  | cons a rest ih =>
    intro idx s st hs hok
    unfold processAnchors at hok
    by_cases hge : (s.results.length : Int) ≥ N
    · rw [if_pos hge, Except.ok.injEq] at hok
      exact hok ▸ hs
    · rw [if_neg hge] at hok
      cases hac : anchorCandidate idx a with
      | error msg => rw [hac] at hok; exact absurd hok (by simp)
      | ok o =>
        cases o with
        | none => rw [hac] at hok; exact ih _ _ _ hs hok
        | some c =>
          rw [hac] at hok
          exact ih _ _ _ (hstep s idx a c hac (lt_of_not_ge hge) hs) hok

/-- A selector match list contributes nothing once the accepted count
has reached the target. -/
theorem processBlockList_of_ge (ctx : PipelineCtx) (N : Int) (idx : Nat) (els : List Element)
    (s : ExtractState) (h : (s.results.length : Int) ≥ N) :
    processBlockList ctx N idx els s = s := by
  cases els with
  | nil => rfl
  | cons e rest =>
    unfold processBlockList
    rw [if_pos h]

/-- The selector loop is the identity once the accepted count has
reached the target. -/
theorem processSelectors_of_ge (ctx : PipelineCtx) (N : Int) (ls : List (List Element))
    (s : ExtractState) (h : (s.results.length : Int) ≥ N) :
    processSelectors ctx N ls s = s := by
  cases ls with
  | nil => rfl
  | cons l rest =>
    show (if ((processBlockList ctx N 0 l s).results.length : Int) ≥ N
          then processBlockList ctx N 0 l s
          else processSelectors ctx N rest (processBlockList ctx N 0 l s)) = s
    rw [processBlockList_of_ge ctx N 0 l s h, if_pos h]

/-- The last-resort pass accepts nothing once the accepted count has
reached the target. -/
theorem processAnchors_of_ge (ctx : PipelineCtx) (N : Int) (idx : Nat) (las : List AnchorEl)
    (s : ExtractState) (h : (s.results.length : Int) ≥ N) :
    processAnchors ctx N idx las s = Except.ok s := by
  cases las with
  | nil => rfl
  | cons a rest =>
    unfold processAnchors
    rw [if_pos h]

/-! ## Concrete claim theorems -/

/-- C1 counterexample: in the last-resort anchor pass the claimed
deduplication does not happen.  On a document where no block selector
matches and the result container holds two anchors with the same
href, one run of extract accepts two results whose links are equal and
non-empty. -/
theorem C1_counterexample :
    (extractBingSearchResults ctxC docC1 5).map (fun st => st.results.map (fun r => r.link)) =
      Except.ok ["https://dup.example/x", "https://dup.example/x"] ∧
    ("https://dup.example/x" : String) ≠ "" := by
  exact ⟨by rfl, by decide⟩

/-- C2 counterexample: extract returns records whose link and snippet
are both empty.  On a document whose result element has an anchor
without href and whose whole text equals its title, the accepted record
has title T, empty link and empty snippet, refuting the claim that at
least one of link and snippet is non-empty in every returned record. -/
theorem C2_counterexample :
    (extractBingSearchResults ctxC docT 5).map
        (fun st => st.results.map (fun r => (r.title, r.link, r.snippet))) =
      Except.ok [("T", "", ""), ("T", "", "")] := by
  rfl

/-- C3 counterexample: a later selector contributes results even though
an earlier selector was productive.  On a document where the first
selector yields one result and the second another, with numResults
three, the pipeline returns two results while the first-productive
strategy of the spec returns one; the two pipelines differ. -/
theorem C3_counterexample :
    (extractBingSearchResults ctxC docC3 3).map (fun st => st.results.length) = Except.ok 2 ∧
    (extractSpecFirstProductive ctxC docC3 3).map (fun st => st.results.length) = Except.ok 1 ∧
    extractBingSearchResults ctxC docC3 3 ≠ extractSpecFirstProductive ctxC docC3 3 := by
  refine ⟨by rfl, by rfl, fun h => ?_⟩
  have h2 := congrArg (Except.map (fun st => st.results.length)) h
  rw [show (extractBingSearchResults ctxC docC3 3).map (fun st => st.results.length) = Except.ok 2 from rfl,
      show (extractSpecFirstProductive ctxC docC3 3).map (fun st => st.results.length) = Except.ok 1 from rfl] at h2
  exact absurd (Except.ok.inj h2) (by decide)

/-- C5: the protocol-relative branch of the link fixer is unreachable,
because the branch testing a single leading slash precedes it and every
string starting with two slashes starts with one.  The candidate link
of the spec example is rewritten to the cn.bing.com origin instead of
being prefixed with the scheme, and tracking cleanup keeps that value. -/
theorem C5_protocol_relative_unreachable :
    fixBingLink "//cdn.example.com/a" = "https://cn.bing.com//cdn.example.com/a" ∧
    cleanTrackingParams (fixBingLink "//cdn.example.com/a") = "https://cn.bing.com//cdn.example.com/a" ∧
    fixBingLink "//cdn.example.com/a" ≠ "https://cdn.example.com/a" := by
  exact ⟨by decide, by decide, by decide⟩

/-- C8 counterexample: generateId is called for candidates that are then
discarded as duplicates.  On a document with two block results sharing
one link, processed by two overlapping selectors with numResults two,
one record is appended but generateId is called four times. -/
theorem C8_counterexample :
    (extractBingSearchResults ctxC docC8 2).map (fun st => (st.genCalls, st.results.length)) =
      Except.ok (4, 1) ∧ (4 : Nat) ≠ 1 := by
  exact ⟨by rfl, by decide⟩

/-- C9: on parseable markup whose result container holds an anchor with
href httpfoo and no surrounding caption, the last-resort pass throws
from the unguarded URL constructor while synthesizing the snippet,
instead of returning a result list. -/
theorem C9_fallback_throw :
    extractBingSearchResults ctxC docC9 5 = Except.error "TypeError: Invalid URL" := by
  rfl

/-- C10: the block-selector pass does not track processed elements and
deduplication ignores empty links, so an element matched by two
overlapping selectors is accepted twice: extract returns two records
identical in title, snippet and empty link, differing only in id. -/
theorem C10_duplicate_element_records :
    (extractBingSearchResults ctxC docT 5).map
        (fun st => st.results.map (fun r => (r.id, r.title, r.link, r.snippet))) =
      Except.ok [("result_0_1_abcdefg", "T", "", ""), ("result_0_2_abcdefg", "T", "", "")] ∧
    ("result_0_1_abcdefg" : String) ≠ "result_0_2_abcdefg" := by
  exact ⟨by rfl, by decide⟩

/-- C1 amended: the block-selector pass deduplicates: any two accepted
results of that pass with equal links have empty links, and when the
block pass accepts at least one result its output is the whole output of
extract.  (The last-resort pass performs no deduplication, see the
counterexample.) -/
theorem C1_block_pass_dedup (ctx : PipelineCtx) (N : Int) (doc : Document) :
    List.Pairwise (fun a b : SearchResultWithTimestamp => a.link = b.link → a.link = "")
      (processSelectors ctx N doc.blocks initState).results ∧
    ((processSelectors ctx N doc.blocks initState).results ≠ [] →
      extractBingSearchResults ctx doc N = Except.ok (processSelectors ctx N doc.blocks initState)) := by
  constructor
  · refine processSelectors_invariant ctx N
      (fun s => List.Pairwise (fun a b : SearchResultWithTimestamp => a.link = b.link → a.link = "") s.results)
      ?_ doc.blocks initState List.Pairwise.nil
    intro idx e s _ hP
    rcases processBlockElement_cases ctx idx e s with hcase | ⟨hres, -, -, -⟩ | ⟨r0, -, hdedup, hres, -, -, -⟩
    · rw [hcase]; exact hP
    · rw [hres]; exact hP
    · rw [hres, List.pairwise_append]
      refine ⟨hP, by simp, ?_⟩
      intro a ha b hb
      rw [List.mem_singleton.mp hb]
      intro heq
      rw [heq]
      exact hdedup a ha heq
  · intro hne
    show (if (processSelectors ctx N doc.blocks initState).results.length = 0
          then processAnchors ctx N 0 doc.anchors (processSelectors ctx N doc.blocks initState)
          else Except.ok (processSelectors ctx N doc.blocks initState)) =
        Except.ok (processSelectors ctx N doc.blocks initState)
    rw [if_neg (fun h0 => hne (List.length_eq_zero.mp h0))]

/-- C1 witness: on the docC3 fixture the block pass is productive and
extract returns exactly its output. -/
theorem C1_witness :
    extractBingSearchResults ctxC docC3 3 = Except.ok (processSelectors ctxC 3 docC3.blocks initState) :=
  (C1_block_pass_dedup ctxC 3 docC3).2 (by decide)

/-- C2 amended: every record returned by extract has a non-empty title
(per the counterexample, link and snippet may simultaneously be empty,
so only the title is guaranteed). -/
theorem C2_title_nonempty (ctx : PipelineCtx) (doc : Document) (N : Int) (st : ExtractState)
    (hok : extractBingSearchResults ctx doc N = Except.ok st) :
    ∀ r ∈ st.results, r.title ≠ "" := by
  have hstep : ∀ (idx : Nat) (e : Element) (s : ExtractState), (s.results.length : Int) < N →
      (∀ r ∈ s.results, r.title ≠ "") →
      ∀ r ∈ (processBlockElement ctx idx e s).results, r.title ≠ "" := by
    intro idx e s _ hP
    rcases processBlockElement_cases ctx idx e s with hcase | ⟨hres, -, -, -⟩ | ⟨r0, htitle, -, hres, -, -, -⟩
    · rw [hcase]; exact hP
    · rw [hres]; exact hP
    · rw [hres]
      intro r hr
      rcases List.mem_append.mp hr with hr | hr
      · exact hP r hr
      · rw [List.mem_singleton.mp hr]; exact htitle
  have hblock : ∀ r ∈ (processSelectors ctx N doc.blocks initState).results, r.title ≠ "" :=
    processSelectors_invariant ctx N (fun s => ∀ r ∈ s.results, r.title ≠ "") hstep doc.blocks
      initState (by intro r hr; exact absurd hr (List.not_mem_nil r))
  simp only [extractBingSearchResults] at hok
  by_cases h0 : (processSelectors ctx N doc.blocks initState).results.length = 0
  · rw [if_pos h0] at hok
    refine processAnchors_ok_invariant ctx N (fun s => ∀ r ∈ s.results, r.title ≠ "") ?_
      doc.anchors 0 _ st hblock hok
    intro s idx a c hac _ hP r hr
    simp only [anchorAccept] at hr
    rcases List.mem_append.mp hr with hr | hr
    · exact hP r hr
    · rw [List.mem_singleton.mp hr]
      exact anchorCandidate_title_ne_empty idx a c hac
  · rw [if_neg h0, Except.ok.injEq] at hok
    exact hok ▸ hblock

/-- C2 witness: the first record extract returns on the docT fixture has
a non-empty title. -/
theorem C2_witness :
    ({ id := "result_0_1_abcdefg", title := "T", link := "", snippet := "", timestamp := 0 } :
      SearchResultWithTimestamp).title ≠ "" :=
  C2_title_nonempty ctxC docT 5
    ⟨[⟨⟨"result_0_1_abcdefg", "T", "", ""⟩, 0⟩, ⟨⟨"result_0_2_abcdefg", "T", "", ""⟩, 0⟩],
     [⟨⟨"result_0_1_abcdefg", "T", "", ""⟩, 0⟩, ⟨⟨"result_0_2_abcdefg", "T", "", ""⟩, 0⟩], 2, 0, 1⟩
    rfl _ (List.mem_cons_self _ _)

/-- C3 amended: the selector loop stops only when the target count is
reached; once the output of the first selectors has reached numResults,
the remaining selectors contribute nothing. -/
theorem C3_stop_only_at_target (ctx : PipelineCtx) (N : Int) (l1 l2 : List (List Element))
    (s : ExtractState) (h : ((processSelectors ctx N l1 s).results.length : Int) ≥ N) :
    processSelectors ctx N (l1 ++ l2) s = processSelectors ctx N l1 s := by
  induction l1 generalizing s with
  | nil =>
    rw [List.nil_append]
    exact processSelectors_of_ge ctx N l2 s h
  | cons l rest ih =>
    rw [List.cons_append]
    have hstep : ∀ (ls : List (List Element)),
        processSelectors ctx N (l :: ls) s =
          if ((processBlockList ctx N 0 l s).results.length : Int) ≥ N
          then processBlockList ctx N 0 l s
          else processSelectors ctx N ls (processBlockList ctx N 0 l s) := fun ls => rfl
    rw [hstep (rest ++ l2), hstep rest]
    by_cases hge : ((processBlockList ctx N 0 l s).results.length : Int) ≥ N
    · rw [if_pos hge, if_pos hge]
    · rw [if_neg hge, if_neg hge]
      apply ih
      rw [hstep rest, if_neg hge] at h
      exact h

/-- C3 witness: with target one, a productive first selector makes the
second selector contribute nothing. -/
theorem C3_witness :
    processSelectors ctxC 1 ([[elemA]] ++ [[elemB]]) initState =
      processSelectors ctxC 1 [[elemA]] initState :=
  C3_stop_only_at_target ctxC 1 [[elemA]] [[elemB]] initState (by decide)

/-- C4: the returned list never exceeds the requested count, and a zero
or negative count yields the empty result immediately (the run state
stays initial, so nothing is accepted in either pass). -/
theorem C4_bounded_count (ctx : PipelineCtx) (doc : Document) (N : Int) :
    (0 ≤ N → ∀ st, extractBingSearchResults ctx doc N = Except.ok st →
      (st.results.length : Int) ≤ N) ∧
    (N ≤ 0 → extractBingSearchResults ctx doc N = Except.ok initState) := by
  constructor
  · intro hN st hok
    have hstep : ∀ (idx : Nat) (e : Element) (s : ExtractState), (s.results.length : Int) < N →
        (s.results.length : Int) ≤ N → ((processBlockElement ctx idx e s).results.length : Int) ≤ N := by
      intro idx e s hlt _
      rcases processBlockElement_cases ctx idx e s with hcase | ⟨hres, -, -, -⟩ | ⟨r0, -, -, hres, -, -, -⟩
      · rw [hcase]; omega
      · rw [hres]; omega
      · rw [hres]
        simp only [List.length_append, List.length_singleton]
        push_cast
        omega
    have hblock : ((processSelectors ctx N doc.blocks initState).results.length : Int) ≤ N :=
      processSelectors_invariant ctx N (fun s => (s.results.length : Int) ≤ N) hstep doc.blocks
        initState (by simpa using hN)
    simp only [extractBingSearchResults] at hok
    by_cases h0 : (processSelectors ctx N doc.blocks initState).results.length = 0
    · rw [if_pos h0] at hok
      refine processAnchors_ok_invariant ctx N (fun s => (s.results.length : Int) ≤ N) ?_
        doc.anchors 0 _ st hblock hok
      intro s idx a c _ hlt _
      simp only [anchorAccept, List.length_append, List.length_singleton]
      push_cast
      omega
    · rw [if_neg h0, Except.ok.injEq] at hok
      exact hok ▸ hblock
  · intro hN
    have h0 : ((initState.results.length : Int) ≥ N) := by
      simp only [initState, List.length_nil]
      omega
    show (if (processSelectors ctx N doc.blocks initState).results.length = 0
          then processAnchors ctx N 0 doc.anchors (processSelectors ctx N doc.blocks initState)
          else Except.ok (processSelectors ctx N doc.blocks initState)) = Except.ok initState
    rw [processSelectors_of_ge ctx N doc.blocks initState h0,
      if_pos (show initState.results.length = 0 from rfl)]
    exact processAnchors_of_ge ctx N 0 doc.anchors initState h0

/-- C4 witness: at count zero extract on docT returns the initial state,
whose result list has length at most zero. -/
theorem C4_witness :
    ((initState.results.length : Int) ≤ 0) ∧
    extractBingSearchResults ctxC docT 0 = Except.ok initState :=
  ⟨(C4_bounded_count ctxC docT 0).1 (le_refl 0) initState ((C4_bounded_count ctxC docT 0).2 (le_refl 0)),
   (C4_bounded_count ctxC docT 0).2 (le_refl 0)⟩

/-- C8 amended: every appended record is handed to saveResult exactly
once (the stored sequence equals the returned sequence), and generateId
is called exactly once per candidate that reaches the duplicate check:
the call count equals the number of appended records plus the number of
candidates discarded as duplicates. -/
theorem C8_genid_accounting (ctx : PipelineCtx) (doc : Document) (N : Int) (st : ExtractState)
    (hok : extractBingSearchResults ctx doc N = Except.ok st) :
    st.stored = st.results ∧ st.genCalls = st.results.length + st.dupDiscards := by
  have hstep : ∀ (idx : Nat) (e : Element) (s : ExtractState), (s.results.length : Int) < N →
      (s.stored = s.results ∧ s.genCalls = s.results.length + s.dupDiscards) →
      ((processBlockElement ctx idx e s).stored = (processBlockElement ctx idx e s).results ∧
       (processBlockElement ctx idx e s).genCalls =
         (processBlockElement ctx idx e s).results.length + (processBlockElement ctx idx e s).dupDiscards) := by
    intro idx e s _ hP
    obtain ⟨h1, h2⟩ := hP
    rcases processBlockElement_cases ctx idx e s with hcase | ⟨hres, hst, hgen, hdup⟩ |
      ⟨r0, -, -, hres, hst, hgen, hdup⟩
    · rw [hcase]; exact ⟨h1, h2⟩
    · rw [hres, hst, hgen, hdup]
      exact ⟨h1, by omega⟩
    · refine ⟨?_, ?_⟩
      · rw [hst, hres, h1]
      · rw [hgen, hres, hdup]
        simp only [List.length_append, List.length_singleton]
        omega
  have hblock := processSelectors_invariant ctx N
    (fun s => s.stored = s.results ∧ s.genCalls = s.results.length + s.dupDiscards) hstep
    doc.blocks initState ⟨rfl, rfl⟩
  simp only [extractBingSearchResults] at hok
  by_cases h0 : (processSelectors ctx N doc.blocks initState).results.length = 0
  · rw [if_pos h0] at hok
    refine processAnchors_ok_invariant ctx N
      (fun s => s.stored = s.results ∧ s.genCalls = s.results.length + s.dupDiscards) ?_
      doc.anchors 0 _ st hblock hok
    intro s idx a c _ _ hP
    obtain ⟨h1, h2⟩ := hP
    refine ⟨?_, ?_⟩
    · simp only [anchorAccept]
      rw [h1]
    · simp only [anchorAccept, List.length_append, List.length_singleton]
      omega
  · rw [if_neg h0, Except.ok.injEq] at hok
    exact hok ▸ hblock

/-- C8 witness: the accounting at the concrete docC8 run, whose state
has one result, three duplicate discards and four generateId calls. -/
theorem C8_witness :
    ([⟨⟨"result_0_1_abcdefg", "TA", "https://a.example/", ""⟩, 0⟩] : List SearchResultWithTimestamp) =
      [⟨⟨"result_0_1_abcdefg", "TA", "https://a.example/", ""⟩, 0⟩] ∧ (4 : Nat) = 1 + 3 :=
  C8_genid_accounting ctxC docC8 2
    ⟨[⟨⟨"result_0_1_abcdefg", "TA", "https://a.example/", ""⟩, 0⟩],
     [⟨⟨"result_0_1_abcdefg", "TA", "https://a.example/", ""⟩, 0⟩], 4, 3, 1⟩ rfl

/-! ## Result store theorems -/

theorem insertByTimestamp_of_le {α : Type} (e : α × Nat) (l : List (α × Nat))
    (h : ∀ x ∈ l, e.2 ≤ x.2) : insertByTimestamp e l = e :: l := by
  cases l with
  | nil => rfl
  | cons x xs =>
    unfold insertByTimestamp
    rw [if_neg (by have := h x (List.mem_cons_self x xs); omega)]

/-- The stable sort is the identity on a list already sorted by
timestamp. -/
theorem sortByTimestamp_of_sorted {α : Type} (l : List (α × Nat))
    (h : List.Pairwise (fun a b : α × Nat => a.2 ≤ b.2) l) : sortByTimestamp l = l := by
  induction l with
  | nil => rfl
  | cons x xs ih =>
    rw [List.pairwise_cons] at h
    unfold sortByTimestamp
    rw [ih h.2]
    exact insertByTimestamp_of_le x xs h.1

/-- C6: cleanup first removes expired records, then evicts oldest-first
down to capacity.  For a store of fresh records in insertion order
(nondecreasing timestamps, distinct ids): with 1001 records exactly the
single oldest record is evicted and 1000 remain, and with at most 1000
records cleanup is a no-op. -/
theorem C6_cleanup {α : Type} [DecidableEq α] (now : Nat) (store : List (α × Nat))
    (hfresh : ∀ e ∈ store, ¬(now - e.2 > RESULT_EXPIRATION_MS))
    (hmono : List.Pairwise (fun a b : α × Nat => a.2 ≤ b.2) store)
    (hids : (store.map Prod.fst).Nodup) :
    (store.length = 1001 → cleanupResults now store = store.drop 1) ∧
    (store.length ≤ 1000 → cleanupResults now store = store) := by
  have hentries : store.filter (fun e => !(now - e.2 > RESULT_EXPIRATION_MS)) = store := by
    rw [List.filter_eq_self]
    intro a ha
    simpa using hfresh a ha
  constructor
  · intro hlen
    obtain ⟨e0, rest, rfl⟩ : ∃ e0 rest, store = e0 :: rest := by
      cases store with
      | nil => simp at hlen
      | cons x xs => exact ⟨x, xs, rfl⟩
    simp only [cleanupResults]
    rw [hentries, if_pos (by rw [hlen]; decide)]
    rw [sortByTimestamp_of_sorted _ hmono, hlen]
    rw [show (1001 - MAX_RESULTS) = 1 from rfl]
    rw [show List.take 1 (e0 :: rest) = [e0] from rfl]
    rw [show List.drop 1 (e0 :: rest) = rest from rfl]
    rw [List.filter_cons, if_neg (by simp)]
    apply List.filter_eq_self.mpr
    intro e he
    have hnotin : e0.1 ∉ rest.map Prod.fst := by
      rw [List.map_cons, List.nodup_cons] at hids
      exact hids.1
    have hne : ¬(e0.1 = e.1) := fun hc => hnotin (hc ▸ List.mem_map_of_mem Prod.fst he)
    simp [hne]
  · intro hlen
    simp only [cleanupResults]
    rw [hentries, if_neg (by rw [show MAX_RESULTS = 1000 from rfl]; omega)]

/-- C6 witness: a store of 1001 fresh records with distinct ids loses
exactly its first record, and a one-record store is untouched. -/
theorem C6_witness :
    cleanupResults 0 ((List.range 1001).map (fun i => (i, 0))) =
      ((List.range 1001).map (fun i => (i, 0))).drop 1 ∧
    cleanupResults 0 [((0 : Nat), 0)] = [((0 : Nat), 0)] := by
  constructor
  · have hfresh : ∀ e ∈ (List.range 1001).map (fun i => (i, 0)),
        ¬((0 : Nat) - e.2 > RESULT_EXPIRATION_MS) := by
      intro e he
      rw [List.mem_map] at he
      obtain ⟨i, -, rfl⟩ := he
      exact (by decide : ¬((0 : Nat) - 0 > RESULT_EXPIRATION_MS))
    have hmono : List.Pairwise (fun a b : Nat × Nat => a.2 ≤ b.2)
        ((List.range 1001).map (fun i => (i, 0))) := by
      rw [List.pairwise_map]
      exact (List.pairwise_lt_range 1001).imp (fun _ => Nat.le_refl 0)
    have hids : (((List.range 1001).map (fun i => (i, 0))).map Prod.fst).Nodup := by
      rw [List.map_map]
      simpa [Function.comp_def] using List.nodup_range 1001
    exact (C6_cleanup 0 _ hfresh hmono hids).1 (by simp)
  · exact (C6_cleanup 0 [((0 : Nat), 0)] (by decide) (by decide) (by decide)).2 (by decide)

/-! ## Identifier uniqueness -/

theorem digitVal_digitChar (d : Nat) (h : d < 10) : digitVal (Nat.digitChar d) = d := by
  interval_cases d <;> decide

theorem digitChar_ne_underscore (d : Nat) (h : d < 10) : Nat.digitChar d ≠ '_' := by
  interval_cases d <;> decide

/-- The fueled digit expansion evaluates back to its input whenever the
fuel is sufficient. -/
theorem natReprAux_eval : ∀ (fuel n : Nat), n ≤ fuel → evalDigits (natReprAux fuel n) = n := by
  intro fuel
  induction fuel with
  | zero =>
    intro n hn
    have h0 : n = 0 := by omega
    subst h0
    rfl
  | succ fuel ih =>
    intro n hn
    cases n with
    | zero => rfl
    | succ m =>
      have hd : (m + 1) % 10 < 10 := Nat.mod_lt _ (by decide)
      have hdiv : (m + 1) / 10 ≤ fuel := by
        have := Nat.div_lt_self (Nat.succ_pos m) (show 1 < 10 by decide)
        omega
      show digitVal (Nat.digitChar ((m + 1) % 10)) + 10 * evalDigits (natReprAux fuel ((m + 1) / 10)) = m + 1
      rw [digitVal_digitChar _ hd, ih _ hdiv]
      omega

theorem natReprAux_ne_underscore : ∀ (fuel n : Nat), ∀ c ∈ natReprAux fuel n, c ≠ '_' := by
  intro fuel
  induction fuel with
  | zero => intro n c hc; cases n <;> exact absurd hc (List.not_mem_nil c)
  | succ fuel ih =>
    intro n c hc
    cases n with
    | zero => exact absurd hc (List.not_mem_nil c)
    | succ m =>
      rcases List.mem_cons.mp hc with h | h
      · subst h
        exact digitChar_ne_underscore _ (Nat.mod_lt _ (by decide))
      · exact ih _ c h

theorem natRepr_ne_underscore (n : Nat) : ∀ c ∈ (natRepr n).data, c ≠ '_' := by
  unfold natRepr
  split
  · intro c hc
    have hc2 : c ∈ ['0'] := hc
    rw [List.mem_singleton.mp hc2]
    decide
  · intro c hc
    have hc2 : c ∈ (natReprAux n n).reverse := hc
    rw [List.mem_reverse] at hc2
    exact natReprAux_ne_underscore n n c hc2

/-- The decimal representation is injective. -/
theorem natRepr_inj (m n : Nat) (h : natRepr m = natRepr n) : m = n := by
  have hdata := congrArg String.data h
  unfold natRepr at hdata
  by_cases hm : m = 0 <;> by_cases hn : n = 0
  · rw [hm, hn]
  · exfalso
    apply hn
    rw [if_pos hm, if_neg hn] at hdata
    have h2 : ['0'] = (natReprAux n n).reverse := hdata
    have h3 : natReprAux n n = ['0'] := by
      have h4 := congrArg List.reverse h2
      simpa using h4.symm
    have he := natReprAux_eval n n (Nat.le_refl n)
    rw [h3] at he
    exact he.symm
  · exfalso
    apply hm
    rw [if_neg hm, if_pos hn] at hdata
    have h2 : (natReprAux m m).reverse = ['0'] := hdata
    have h3 : natReprAux m m = ['0'] := by
      have h4 := congrArg List.reverse h2
      simpa using h4
    have he := natReprAux_eval m m (Nat.le_refl m)
    rw [h3] at he
    exact he.symm
  · rw [if_neg hm, if_neg hn] at hdata
    have h2 : (natReprAux m m).reverse = (natReprAux n n).reverse := hdata
    have h3 : natReprAux m m = natReprAux n n := by
      have h4 := congrArg List.reverse h2
      simpa using h4
    have hem := natReprAux_eval m m (Nat.le_refl m)
    rw [h3, natReprAux_eval n n (Nat.le_refl n)] at hem
    exact hem.symm

/-- Splitting an underscore-separated concatenation at the first
underscore is unambiguous when the leading segments contain none. -/
theorem underscore_split : ∀ (a b x y : List Char), '_' ∉ a → '_' ∉ b →
    a ++ '_' :: x = b ++ '_' :: y → a = b ∧ x = y := by
  intro a
  induction a with
  | nil =>
    intro b x y _ hb h
    cases b with
    | nil => exact ⟨rfl, by simpa using h⟩
    | cons c bs =>
      exfalso
      rw [List.nil_append, List.cons_append] at h
      injection h with h1 h2
      subst h1
      exact hb (List.mem_cons_self _ _)
  | cons c as ih =>
    intro b x y ha hb h
    cases b with
    | nil =>
      exfalso
      rw [List.cons_append, List.nil_append] at h
      injection h with h1 h2
      subst h1
      exact ha (List.mem_cons_self _ _)
    | cons c2 bs =>
      rw [List.cons_append, List.cons_append] at h
      injection h with h1 h2
      subst h1
      have ha2 : '_' ∉ as := fun hm => ha (List.mem_cons_of_mem _ hm)
      have hb2 : '_' ∉ bs := fun hm => hb (List.mem_cons_of_mem _ hm)
      obtain ⟨e1, e2⟩ := ih bs x y ha2 hb2 h2
      exact ⟨by rw [e1], e2⟩

/-- Identifiers generated with distinct counter values are distinct, for
any prefixes, timestamps and underscore-free random components: parsing
the identifier from the right recovers the counter digits. -/
theorem generateResultId_ne (p1 p2 r1 r2 : String) (t1 t2 c1 c2 : Nat)
    (h1 : '_' ∉ r1.data) (h2 : '_' ∉ r2.data) (hc : c1 ≠ c2) :
    (generateResultId p1 c1 t1 r1).1 ≠ (generateResultId p2 c2 t2 r2).1 := by
  intro heq
  apply hc
  have hda := congrArg (fun s : String => s.data.reverse) heq
  have hu : ("_" : String).data = ['_'] := rfl
  simp only [generateResultId, String.data_append, hu, List.reverse_append, List.append_assoc,
    List.reverse_cons, List.reverse_nil, List.nil_append, List.singleton_append,
    List.cons_append] at hda
  obtain ⟨-, hrest⟩ := underscore_split _ _ _ _
    (fun hm => h1 (List.mem_reverse.mp hm)) (fun hm => h2 (List.mem_reverse.mp hm)) hda
  obtain ⟨e2, -⟩ := underscore_split _ _ _ _
    (fun hm => (natRepr_ne_underscore (c1 + 1) '_' (List.mem_reverse.mp hm)) rfl)
    (fun hm => (natRepr_ne_underscore (c2 + 1) '_' (List.mem_reverse.mp hm)) rfl) hrest
  have e3 : natRepr (c1 + 1) = natRepr (c2 + 1) := by
    apply String.ext
    have h4 := congrArg List.reverse e2
    simpa using h4
  have h5 := natRepr_inj _ _ e3
  omega

/-- C7: two calls of generateResultId made at distinct counter states
produce distinct identifiers, whatever the prefixes and timestamps,
because the identifier embeds the counter; consequently any run of
successive calls within one clock tick yields pairwise distinct
identifiers. -/
theorem C7_generateResultId_unique :
    (∀ (p1 p2 r1 r2 : String) (t1 t2 c1 c2 : Nat),
        '_' ∉ r1.data → '_' ∉ r2.data → c1 ≠ c2 →
        (generateResultId p1 c1 t1 r1).1 ≠ (generateResultId p2 c2 t2 r2).1) ∧
    (∀ (n c0 t : Nat) (p : String) (rand : Nat → String), (∀ i, '_' ∉ (rand i).data) →
        ((List.range n).map (fun i => (generateResultId p (c0 + i) t (rand i)).1)).Nodup) := by
  constructor
  · exact generateResultId_ne
  · intro n c0 t p rand hrand
    apply List.Nodup.map_on ?_ (List.nodup_range n)
    intro x hx y hy hxy
    by_contra hne
    exact generateResultId_ne p p (rand x) (rand y) t t (c0 + x) (c0 + y)
      (hrand x) (hrand y) (by omega) hxy

/-- C7 witness: with counters zero and one in the same tick the two
identifiers differ, and a run of three calls yields three distinct
identifiers. -/
theorem C7_witness :
    (generateResultId "result" 0 5 "abc").1 ≠ (generateResultId "result" 1 5 "abc").1 ∧
    ((List.range 3).map (fun i => (generateResultId "result" (0 + i) 5 ((fun _ => "abc") i)).1)).Nodup :=
  ⟨C7_generateResultId_unique.1 "result" "result" "abc" "abc" 5 5 0 1 (by decide) (by decide)
      (by decide),
   C7_generateResultId_unique.2 3 0 5 "result" (fun _ => "abc")
     (fun i => (by decide : Not (Membership.mem "abc".data (Char.ofNat 95))))⟩

end BingMcp
